import Mathlib

/-
Verification of the dependency-resolution engine and caching layer of
lib/galaxy/tools/deps/__init__.py (DependencyManager, CachedDependencyManager,
NullDependencyManager).

The Python source is shallowly embedded: the ordered dict
`requirement_to_dependency` becomes an association list with
insert-or-update-in-place semantics (`odInsert`), the resolver chain becomes a
list of `Resolver` records, and the filesystem effects of the caching layer
become explicit state passing over `FSState` together with an event log.
Collaborator classes that live outside this repository's src tree
(ToolRequirements.resolvable, NullDependency, ContainerDependency, the
resolver plugin contract, galaxy.util.hash_util.new_secure_hash) are modelled
from the spec and marked as such in their doc comments.
-/

/-- Embeds ToolRequirement (galaxy/tools/deps/requirements.py collaborator):
one declared need, equality by (name, version, type). -/
structure ToolRequirement where
  name : String
  version : Option String
  type : String
deriving DecidableEq

/-- Embeds ToolRequirements: an ordered collection of ToolRequirement. -/
structure ToolRequirements where
  tool_requirements : List ToolRequirement
deriving DecidableEq

/-- Modelled from the spec: ToolRequirements.resolvable (requirements.py, not
under src/) is the derived read-only view of the requirements the engine is
allowed to act on, excluding informational-only entries; package and
set_environment requirements are resolvable. -/
def ToolRequirements.resolvable (reqs : ToolRequirements) : List ToolRequirement :=
  reqs.tool_requirements.filter (fun r => r.type == "package" || r.type == "set_environment")

/-- Embeds ContainerDescription (galaxy/tools/deps/requirements.py
collaborator): a container image description returned by batch resolution. -/
structure ContainerDescription where
  identifier : String
deriving DecidableEq

/-- Embeds the Dependency object contract: every resolved dependency exposes
name, version, exact, dependency_type, cacheable, and shell-activation
commands; `isNull` marks the NullDependency variant and `isContainer` the
ContainerDependency variant (isinstance checks in the source). -/
structure Dependency where
  name : Option String
  version : Option String
  exact : Bool
  dependency_type : Option String
  cacheable : Bool
  isNull : Bool
  isContainer : Bool
  container : Option ContainerDescription
  shell_command : String
deriving DecidableEq

/-- Modelled from the spec: NullDependency (galaxy/tools/deps/resolvers, not
under src/) is the unresolved sentinel carrying the requested name/version;
it is exact, non-cacheable and produces no activation command. -/
def NullDependency (name : String) (version : Option String) : Dependency :=
  { name := some name, version := version, exact := true, dependency_type := none,
    cacheable := false, isNull := true, isContainer := false, container := none,
    shell_command := "" }

/-- Modelled from the spec: ContainerDependency(container_description,
name=r.name, version=r.version) (galaxy/tools/deps/resolvers, not under src/):
the container variant wrapping a ContainerDescription; containers are
already-materialized references, hence non-cacheable. -/
def ContainerDependency (cd : ContainerDescription) (name : String) (version : Option String) : Dependency :=
  { name := some name, version := version, exact := true, dependency_type := none,
    cacheable := false, isNull := false, isContainer := true, container := some cd,
    shell_command := "" }

/-- Result of a batch invocation (resolve_all, or a container resolver's
resolve over the whole requirement set): either a list of dependencies (empty
models a falsy None/[] return) or a single shared ContainerDescription. -/
inductive BatchResult where
  | deps : List Dependency → BatchResult
  | containerDescription : ContainerDescription → BatchResult

/-- Embeds the resolver plugin contract as observed by the engine:
resolver_type, whether the object is a ContainerResolver instance, whether it
has a resolve_all attribute (batch capability), the batch entry point, and the
single-item resolve. For a container resolver without resolve_all the engine
calls its resolve method over the whole set, which is also modelled by
`resolveAll`. -/
structure Resolver where
  resolver_type : String
  isContainer : Bool
  hasResolveAll : Bool
  resolveAll : List ToolRequirement → BatchResult
  resolve : ToolRequirement → Dependency

/-- A plain per-item package resolver: no batch capability, not a container
resolver. -/
def plainResolver (t : String) (f : ToolRequirement → Dependency) : Resolver :=
  { resolver_type := t, isContainer := false, hasResolveAll := false,
    resolveAll := fun _ => BatchResult.deps [], resolve := f }

/-- Call options of _requirements_to_dependencies_dict (lines 142-149):
index, install, resolver_type, exact, return_null, search. -/
structure ResolveOpts where
  index : Option Nat
  install : Bool
  resolver_type : Option String
  exact : Bool
  return_null : Bool
  search : Bool

/-- The default call options (all kwds absent). -/
def defaultOpts : ResolveOpts :=
  { index := none, install := false, resolver_type := none, exact := false,
    return_null := false, search := false }

/-- Options with only return_null set. -/
def returnNullOpts : ResolveOpts :=
  { index := none, install := false, resolver_type := none, exact := false,
    return_null := true, search := false }

/-- The OrderedDict requirement_to_dependency, as an association list in
insertion order. -/
abbrev OD := List (ToolRequirement × Dependency)

/-- OrderedDict assignment d[k] = v: update in place if the key is present,
append otherwise. -/
def odInsert (rtd : OD) (k : ToolRequirement) (v : Dependency) : OD :=
  if k ∈ rtd.map Prod.fst then
    rtd.map (fun p => if p.1 = k then (k, v) else p)
  else rtd ++ [(k, v)]

/-- OrderedDict lookup d[k] (first entry with the key). -/
def odLookup : OD → ToolRequirement → Option Dependency
  | [], _ => none
  | p :: rest, k => if p.1 = k then some p.2 else odLookup rest k

/-- Line 162: the snapshot OrderedDict of entries whose value is not a
NullDependency. -/
def nonNullEntries (rtd : OD) : OD :=
  rtd.filter (fun p => !p.2.isNull)

/-- Lines 195-197: record a zipped (requirement, dependency) batch result into
the ordered dict. -/
def insertAll (rtd : OD) (pairs : List (ToolRequirement × Dependency)) : OD :=
  match pairs with
  | [] => rtd
  | p :: rest => insertAll (odInsert rtd p.1 p.2) rest

/-- Lines 209-219: record one single-item resolution: drop non-exact results
when exact is required; record concrete results; record Null results only
under return_null, overwriting their version with the requested version. -/
def recordOne (opts : ResolveOpts) (dependency : Dependency) (requirement : ToolRequirement) (rtd : OD) : OD :=
  if opts.exact && !dependency.exact then rtd
  else if dependency.isNull = false then odInsert rtd requirement dependency
  else if opts.return_null then odInsert rtd requirement { dependency with version := requirement.version }
  else rtd

/-- Lines 204-219: the per-item loop over resolvable requirements; skips
requirements already present in the non-null snapshot taken before this
resolver ran. -/
def perItemPass (opts : ResolveOpts) (r : Resolver) (snapKeys : List ToolRequirement) :
    List ToolRequirement → OD → OD
  | [], rtd => rtd
  | req :: rest, rtd =>
    if req ∈ snapKeys then perItemPass opts r snapKeys rest rtd
    else perItemPass opts r snapKeys rest (recordOne opts (r.resolve req) req rtd)

/-- Lines 156-157: skip this resolver when an index restriction names another
position. -/
def indexSkip (idx : Option Nat) (i : Nat) : Bool :=
  match idx with
  | some j => i != j
  | none => false

/-- Lines 159-160: skip this resolver when a resolver_type restriction names
another type. -/
def typeSkip (rt : Option String) (r : Resolver) : Bool :=
  match rt with
  | some t => r.resolver_type != t
  | none => false

/-- str.startswith(prefix), as a structural character-list test (the Python
semantics of str.startswith). -/
def strStartsWith (s pre : String) : Bool :=
  pre.data.isPrefixOf s.data

/-- Line 177: a container resolver may be consulted only if its resolver_type
starts with cached/explicit or the call sets search or install. -/
def containerBatchAllowed (opts : ResolveOpts) (r : Resolver) : Bool :=
  strStartsWith r.resolver_type "cached" || strStartsWith r.resolver_type "explicit" ||
    opts.search || opts.install

/-- The truthiness test of line 191 plus the ContainerDescription expansion of
lines 192-193: the dependencies a successful batch invocation yields, none if
the batch returned a falsy value. -/
def batchResultDeps (r : Resolver) (resolvable : List ToolRequirement) : Option (List Dependency) :=
  match r.resolveAll resolvable with
  | BatchResult.deps ds => if ds.isEmpty then none else some ds
  | BatchResult.containerDescription cd =>
    some (resolvable.map (fun q => ContainerDependency cd q.name q.version))

/-- Lines 154-221: the chain walk of _requirements_to_dependencies_dict.
For each resolver: apply index/resolver_type filters; break once the non-null
entries cover every resolvable requirement; skip build_mulled resolvers unless
install; skip container resolvers that may not be consulted; when nothing is
met yet and the resolver has a batch entry point, a truthy batch result is
recorded for all requirements and the loop breaks (the source asserts that the
batch result has one dependency per requirement); otherwise non-container
resolvers run the per-item loop. -/
def resolveLoop (opts : ResolveOpts) (resolvable : List ToolRequirement) :
    List Resolver → Nat → OD → OD
  | [], _, rtd => rtd
  | r :: rest, i, rtd =>
    if indexSkip opts.index i then resolveLoop opts resolvable rest (i + 1) rtd
    else if typeSkip opts.resolver_type r then resolveLoop opts resolvable rest (i + 1) rtd
    else if (nonNullEntries rtd).length = resolvable.length then rtd
    else if strStartsWith r.resolver_type "build_mulled" && !opts.install then
      resolveLoop opts resolvable rest (i + 1) rtd
    else if !r.hasResolveAll && r.isContainer && !containerBatchAllowed opts r then
      resolveLoop opts resolvable rest (i + 1) rtd
    else if (nonNullEntries rtd).isEmpty && (r.hasResolveAll || r.isContainer) then
      match batchResultDeps r resolvable with
      | some ds => insertAll rtd (resolvable.zip ds)
      | none =>
        if r.isContainer then resolveLoop opts resolvable rest (i + 1) rtd
        else resolveLoop opts resolvable rest (i + 1)
          (perItemPass opts r ((nonNullEntries rtd).map Prod.fst) resolvable rtd)
    else
      if r.isContainer then resolveLoop opts resolvable rest (i + 1) rtd
      else resolveLoop opts resolvable rest (i + 1)
        (perItemPass opts r ((nonNullEntries rtd).map Prod.fst) resolvable rtd)

/-- Embeds DependencyManager state relevant to resolution: the ordered
resolver chain (lines 76-79; base path and container destinations do not
influence the recorded results). -/
structure DependencyManager where
  dependency_resolvers : List Resolver

/-- Lines 142-221: _requirements_to_dependencies_dict — build the ordered
requirements-to-dependencies dict over the resolvable view. -/
def requirements_to_dependencies_dict (mgr : DependencyManager) (opts : ResolveOpts)
    (requirements : ToolRequirements) : OD :=
  resolveLoop opts requirements.resolvable mgr.dependency_resolvers 0 []

/-- Lines 129-140: requirements_to_dependencies (tool_instance caching is a
side effect on the caller's object and is not part of the returned value). -/
def requirements_to_dependencies (mgr : DependencyManager) (opts : ResolveOpts)
    (requirements : ToolRequirements) : OD :=
  requirements_to_dependencies_dict mgr opts requirements

/-- Lines 226-233: find_dep — resolve one synthetic requirement and return its
single dependency, or a NullDependency when the dict is empty. -/
def DependencyManager.find_dep (mgr : DependencyManager) (opts : ResolveOpts)
    (name : String) (version : Option String) (type : String) : Dependency :=
  let dep_dict := requirements_to_dependencies_dict mgr opts
    { tool_requirements := [{ name := name, version := version, type := type }] }
  match dep_dict with
  | [] => NullDependency name version
  | p :: _ => p.2

/-- Lines 339-340: NullDependencyManager.find_dep returns a NullDependency
with the requested name and version. -/
def NullDependencyManager.find_dep (name : String) (version : Option String)
    (type : String) : Dependency :=
  NullDependency name version

/-- The 4-tuple extracted per dependency on line 306. -/
abbrev DepTuple := Option String × Option String × Bool × Option String

/-- Line 306: (dep.name, dep.version, dep.exact, dep.dependency_type). -/
def depTuple (d : Dependency) : DepTuple :=
  (d.name, d.version, d.exact, d.dependency_type)

/-- Python 2 ordering of an optional string: None sorts before every string,
strings compare lexicographically by character code; modelled as WithBot over
lexicographically ordered lists of character codes. -/
def keyOpt (o : Option String) : WithBot (List Nat) :=
  match o with
  | none => ⊥
  | some s => ((s.data.map Char.toNat : List Nat) : WithBot (List Nat))

/-- The lexicographic sort key of one dependency tuple, as used by sorted() on
line 307. -/
def depKey (t : DepTuple) :
    (WithBot (List Nat)) ×ₗ ((WithBot (List Nat)) ×ₗ (Bool ×ₗ (WithBot (List Nat)))) :=
  toLex (keyOpt t.1, toLex (keyOpt t.2.1, toLex (t.2.2.1, keyOpt t.2.2.2)))

/-- The comparison used by sorted(resolved_dependencies) on line 307. -/
def pyLe (a b : DepTuple) : Prop :=
  depKey a ≤ depKey b

instance : DecidableRel pyLe :=
  fun a b => decidable_of_iff (depKey a ≤ depKey b) Iff.rfl

/-- JSON rendering of an optional string (json.dumps: null or a quoted
string). -/
def jsonOpt : Option String → String
  | none => "null"
  | some s => "\"" ++ s ++ "\""

/-- JSON rendering of a bool (json.dumps: true/false). -/
def jsonBool : Bool → String
  | true => "true"
  | false => "false"

/-- JSON rendering of one dependency tuple as an array. -/
def jsonTuple (t : DepTuple) : String :=
  "[" ++ jsonOpt t.1 ++ ", " ++ jsonOpt t.2.1 ++ ", " ++ jsonBool t.2.2.1 ++ ", " ++
    jsonOpt t.2.2.2 ++ "]"

/-- Line 307: json.dumps of the sorted tuple list. -/
def jsonList (ts : List DepTuple) : String :=
  "[" ++ String.intercalate ", " (ts.map jsonTuple) ++ "]"

/-- A hexadecimal digit character for a value below 16. -/
def hexDigit (n : Nat) : Char :=
  if n < 10 then Char.ofNat (48 + n) else Char.ofNat (87 + n)

/-- The lowercase hexadecimal alphabet. -/
def hexChars : List Char :=
  "0123456789abcdef".data

/-- Render a natural number as exactly w hexadecimal digits (most significant
first, leading zeros kept). -/
def natToHexPadded (n w : Nat) : String :=
  String.mk ((List.range w).map (fun j => hexDigit (n / 16 ^ (w - 1 - j) % 16)))

/-- Modelled from the spec: galaxy.util.hash_util.new_secure_hash (not under
src/) computes a deterministic cryptographic hex digest of its argument (sha1,
40 hex characters); modelled as a deterministic rolling hash rendered as 40
hex digits. -/
def new_secure_hash (s : String) : String :=
  natToHexPadded (s.data.foldl (fun a c => (a * 131 + c.toNat + 7) % 16 ^ 40) 0) 40

/-- Lines 304-308: CachedDependencyManager.hash_dependencies — extract the
4-tuples, sort, serialize with json.dumps, digest, and keep the first 8 hex
characters. -/
def hash_dependencies (resolved_dependencies : List Dependency) : String :=
  String.mk ((new_secure_hash (jsonList
    (List.insertionSort pyLe (resolved_dependencies.map depTuple)))).data.take 8)

/-- Embeds CachedDependencyManager state: the underlying resolution engine,
tool_dependency_cache_dir (line 267) and the precache_dependencies app option
(line 296). -/
structure CachedDependencyManager where
  manager : DependencyManager
  tool_dependency_cache_dir : String
  precache_dependencies : Bool

/-- The filesystem as observed by the caching layer: the set of existing cache
directories. -/
structure FSState where
  existingDirs : List String
deriving DecidableEq

/-- Observable side effects of the caching layer: recursive deletion of a
cache directory, a cacheable dependency's build routine run against a path,
and set_cache_path on a cacheable dependency. -/
inductive CacheEvent where
  | removedTree : String → CacheEvent
  | builtDep : String → Dependency → CacheEvent
  | setCachePath : String → Dependency → CacheEvent
deriving DecidableEq

/-- Lines 270/293: the resolved dependencies of a requirement set. -/
def resolvedOf (mgr : CachedDependencyManager) (opts : ResolveOpts)
    (reqs : ToolRequirements) : OD :=
  requirements_to_dependencies mgr.manager opts reqs

/-- Lines 271/294: the cacheable subset of the resolved dependency values. -/
def cacheableOf (mgr : CachedDependencyManager) (opts : ResolveOpts)
    (reqs : ToolRequirements) : List Dependency :=
  ((resolvedOf mgr opts reqs).map Prod.snd).filter (fun d => d.cacheable)

/-- Lines 310-321: get_hashed_dependencies_path = cache_dir/hash (os.path.join
modelled as string concatenation with a separator). -/
def get_hashed_dependencies_path (mgr : CachedDependencyManager)
    (resolved_dependencies : List Dependency) : String :=
  mgr.tool_dependency_cache_dir ++ "/" ++ hash_dependencies resolved_dependencies

/-- The hashed cache directory of a requirement set. -/
def cacheDirOf (mgr : CachedDependencyManager) (opts : ResolveOpts)
    (reqs : ToolRequirements) : String :=
  get_hashed_dependencies_path mgr (cacheableOf mgr opts reqs)

/-- Line 283 plus the dependency build contract: each cacheable dependency's
own build routine is invoked against the hashed directory and populates it on
the filesystem (so the directory exists afterwards when at least one build
ran). -/
def doBuild (fs : FSState) (dir : String) (cacheable : List Dependency)
    (evts : List CacheEvent) : Except String (FSState × List CacheEvent) :=
  if cacheable.isEmpty then Except.ok (fs, evts)
  else Except.ok ({ existingDirs := fs.existingDirs ++ [dir] },
    evts ++ cacheable.map (fun d => CacheEvent.builtDep dir d))

/-- Lines 269-283: CachedDependencyManager.build_cache. If the hashed
directory exists: with force_rebuild delete it recursively (re-raising a
deletion failure, modelled by the rmtreeOk flag), without force_rebuild return
without building; then run each cacheable dependency's build routine. -/
def build_cache (mgr : CachedDependencyManager) (fs : FSState)
    (reqs : ToolRequirements) (opts : ResolveOpts) (force_rebuild rmtreeOk : Bool) :
    Except String (FSState × List CacheEvent) :=
  let cacheable := cacheableOf mgr opts reqs
  let dir := get_hashed_dependencies_path mgr cacheable
  if dir ∈ fs.existingDirs then
    if force_rebuild then
      if rmtreeOk then
        doBuild { existingDirs := fs.existingDirs.filter (fun p => decide (p ≠ dir)) }
          dir cacheable [CacheEvent.removedTree dir]
      else Except.error "Could not delete cached dependencies directory"
    else Except.ok (fs, [])
  else doBuild fs dir cacheable []

/-- Lines 285-302: CachedDependencyManager.dependency_shell_commands — resolve;
when the hashed directory is absent and precache_dependencies is set, build the
cache first; when the directory exists at that point, set_cache_path on every
cacheable dependency; return one shell-command entry per resolved dependency
in resolution order. -/
def CachedDependencyManager.dependency_shell_commands (mgr : CachedDependencyManager)
    (fs : FSState) (reqs : ToolRequirements) (opts : ResolveOpts)
    (force_rebuild rmtreeOk : Bool) :
    Except String (FSState × List CacheEvent × List String) :=
  let resolved := resolvedOf mgr opts reqs
  let cacheable := cacheableOf mgr opts reqs
  let dir := get_hashed_dependencies_path mgr cacheable
  let step1 : Except String (FSState × List CacheEvent) :=
    if dir ∈ fs.existingDirs then Except.ok (fs, [])
    else if mgr.precache_dependencies then build_cache mgr fs reqs opts force_rebuild rmtreeOk
    else Except.ok (fs, [])
  match step1 with
  | Except.error e => Except.error e
  | Except.ok (fs1, evts) =>
    let evts1 :=
      if dir ∈ fs1.existingDirs then
        evts ++ cacheable.map (fun d => CacheEvent.setCachePath dir d)
      else evts
    Except.ok (fs1, evts1, resolved.map (fun p => p.2.shell_command))


/-- The keys of the ordered dict after an assignment: unchanged when the key
was present (update in place), appended otherwise. -/
theorem map_fst_odInsert (rtd : OD) (k : ToolRequirement) (v : Dependency) :
    (odInsert rtd k v).map Prod.fst =
      if k ∈ rtd.map Prod.fst then rtd.map Prod.fst else rtd.map Prod.fst ++ [k] := by
  unfold odInsert
  by_cases h : k ∈ rtd.map Prod.fst
  · rw [if_pos h, if_pos h, List.map_map]
    apply List.map_congr_left
    intro p _
    by_cases hpk : p.1 = k
    · simp [Function.comp, hpk]
    · simp [Function.comp, hpk]
  · rw [if_neg h, if_neg h]
    simp

/-- Every entry of an updated dict is an old entry or the assigned pair. -/
theorem mem_odInsert {rtd : OD} {k : ToolRequirement} {v : Dependency}
    {p : ToolRequirement × Dependency} (hp : p ∈ odInsert rtd k v) :
    p ∈ rtd ∨ p = (k, v) := by
  unfold odInsert at hp
  by_cases h : k ∈ rtd.map Prod.fst
  · rw [if_pos h] at hp
    rcases List.mem_map.mp hp with ⟨q, hq, rfl⟩
    by_cases hqk : q.1 = k
    · right; simp [hqk]
    · left; simpa [hqk] using hq
  · rw [if_neg h] at hp
    rcases List.mem_append.mp hp with h1 | h1
    · exact Or.inl h1
    · right; simpa using h1

/-- The assigned key is a key of the updated dict. -/
theorem mem_map_fst_odInsert_self (rtd : OD) (k : ToolRequirement) (v : Dependency) :
    k ∈ (odInsert rtd k v).map Prod.fst := by
  rw [map_fst_odInsert]
  by_cases h : k ∈ rtd.map Prod.fst
  · rwa [if_pos h]
  · rw [if_neg h]; simp

/-- Updating a dict never removes a key. -/
theorem mem_map_fst_odInsert_mono (rtd : OD) (k' : ToolRequirement) (v' : Dependency)
    {k : ToolRequirement} (h : k ∈ rtd.map Prod.fst) :
    k ∈ (odInsert rtd k' v').map Prod.fst := by
  rw [map_fst_odInsert]
  by_cases h' : k' ∈ rtd.map Prod.fst
  · rwa [if_pos h']
  · rw [if_neg h']; exact List.mem_append_left _ h

/-- A successful lookup denotes membership of the pair. -/
theorem odLookup_eq_some_mem {rtd : OD} {k : ToolRequirement} {v : Dependency}
    (h : odLookup rtd k = some v) : (k, v) ∈ rtd := by
  induction rtd with
  | nil => simp [odLookup] at h
  | cons p rest ih =>
    by_cases hpk : p.1 = k
    · simp only [odLookup, if_pos hpk, Option.some.injEq] at h
      have hp : (k, v) = p := by rw [← hpk, ← h]
      rw [hp]
      exact List.mem_cons_self _ _
    · rw [odLookup, if_neg hpk] at h
      exact List.mem_cons_of_mem _ (ih h)

/-- Updating in place at a different key leaves a lookup unchanged. -/
theorem odLookup_map_update_ne (rtd : OD) (k k' : ToolRequirement) (v' : Dependency)
    (hne : k' ≠ k) :
    odLookup (rtd.map (fun p => if p.1 = k' then (k', v') else p)) k = odLookup rtd k := by
  induction rtd with
  | nil => rfl
  | cons p rest ih =>
    by_cases hpk : p.1 = k'
    · rw [List.map_cons, if_pos hpk]
      rw [odLookup, if_neg hne, odLookup, hpk, if_neg hne, ih]
    · rw [List.map_cons, if_neg hpk]
      rw [odLookup, odLookup, ih]

/-- Appending a single entry with a different key leaves a lookup unchanged. -/
theorem odLookup_append_single_ne (rtd : OD) (k k' : ToolRequirement) (v' : Dependency)
    (hne : k' ≠ k) :
    odLookup (rtd ++ [(k', v')]) k = odLookup rtd k := by
  induction rtd with
  | nil => simp [odLookup, hne]
  | cons p rest ih =>
    by_cases hpk : p.1 = k
    · rw [List.cons_append, odLookup, if_pos hpk, odLookup, if_pos hpk]
    · rw [List.cons_append, odLookup, if_neg hpk, odLookup, if_neg hpk, ih]

/-- An assignment at a different key leaves a lookup unchanged. -/
theorem odLookup_odInsert_ne {rtd : OD} {k k' : ToolRequirement} {v' : Dependency}
    (hne : k' ≠ k) : odLookup (odInsert rtd k' v') k = odLookup rtd k := by
  unfold odInsert
  by_cases h : k' ∈ rtd.map Prod.fst
  · rw [if_pos h, odLookup_map_update_ne _ _ _ _ hne]
  · rw [if_neg h, odLookup_append_single_ne _ _ _ _ hne]

/-- Recording pairs whose keys are already present never changes the key
sequence. -/
theorem map_fst_insertAll_of_subset (pairs : List (ToolRequirement × Dependency)) :
    ∀ rtd : OD, (∀ p ∈ pairs, p.1 ∈ rtd.map Prod.fst) →
      (insertAll rtd pairs).map Prod.fst = rtd.map Prod.fst := by
  induction pairs with
  | nil => intro rtd _; rfl
  | cons p rest ih =>
    intro rtd h
    have hp : p.1 ∈ rtd.map Prod.fst := h p (List.mem_cons_self _ _)
    have hkeys : (odInsert rtd p.1 p.2).map Prod.fst = rtd.map Prod.fst := by
      rw [map_fst_odInsert, if_pos hp]
    rw [insertAll, ih (odInsert rtd p.1 p.2) (fun q hq => by
      rw [hkeys]; exact h q (List.mem_cons_of_mem _ hq)), hkeys]

/-- Recording pairs with fresh, pairwise-distinct keys appends exactly those
keys in order. -/
theorem map_fst_insertAll_nodup (pairs : List (ToolRequirement × Dependency)) :
    ∀ rtd : OD, (rtd.map Prod.fst ++ pairs.map Prod.fst).Nodup →
      (insertAll rtd pairs).map Prod.fst = rtd.map Prod.fst ++ pairs.map Prod.fst := by
  induction pairs with
  | nil => intro rtd _; simp [insertAll]
  | cons p rest ih =>
    intro rtd h
    have hd : ((rtd.map Prod.fst ++ [p.1]) ++ rest.map Prod.fst).Nodup := by
      rw [List.append_assoc, List.singleton_append]
      simpa using h
    have hnotin : p.1 ∉ rtd.map Prod.fst := by
      rcases List.nodup_append.mp h with ⟨_, _, hdisj⟩
      intro hmem
      exact hdisj hmem (by simp)
    have hkeys : (odInsert rtd p.1 p.2).map Prod.fst = rtd.map Prod.fst ++ [p.1] := by
      rw [map_fst_odInsert, if_neg hnotin]
    rw [insertAll, ih (odInsert rtd p.1 p.2) (by rw [hkeys]; exact hd), hkeys,
      List.append_assoc, List.singleton_append, List.map_cons]

/-- Recording pairs never removes a key. -/
theorem mem_map_fst_insertAll_mono (pairs : List (ToolRequirement × Dependency)) :
    ∀ rtd : OD, ∀ {k : ToolRequirement}, k ∈ rtd.map Prod.fst →
      k ∈ (insertAll rtd pairs).map Prod.fst := by
  induction pairs with
  | nil => intro rtd k h; exact h
  | cons p rest ih =>
    intro rtd k h
    rw [insertAll]
    exact ih _ (mem_map_fst_odInsert_mono _ _ _ h)

/-- Every recorded key is a key of the result. -/
theorem mem_map_fst_insertAll (pairs : List (ToolRequirement × Dependency)) :
    ∀ rtd : OD, ∀ {k : ToolRequirement}, k ∈ pairs.map Prod.fst →
      k ∈ (insertAll rtd pairs).map Prod.fst := by
  induction pairs with
  | nil => intro rtd k h; simp at h
  | cons p rest ih =>
    intro rtd k h
    rw [List.map_cons] at h
    rcases List.mem_cons.mp h with h1 | h1
    · rw [insertAll]
      exact mem_map_fst_insertAll_mono rest _ (h1 ▸ mem_map_fst_odInsert_self _ _ _)
    · rw [insertAll]
      exact ih _ h1

/-- Recording a single-item result for a requirement already keyed leaves the
key sequence unchanged. -/
theorem map_fst_recordOne_of_mem (opts : ResolveOpts) (dep : Dependency)
    (req : ToolRequirement) (rtd : OD) (h : req ∈ rtd.map Prod.fst) :
    (recordOne opts dep req rtd).map Prod.fst = rtd.map Prod.fst := by
  unfold recordOne
  split_ifs <;> simp [map_fst_odInsert, h]

/-- With return_null set and no exactness requirement, recording a single-item
result for a fresh requirement appends exactly that key. -/
theorem map_fst_recordOne_returnNull (opts : ResolveOpts) (dep : Dependency)
    (req : ToolRequirement) (rtd : OD) (hrn : opts.return_null = true)
    (hex : opts.exact = false) (h : req ∉ rtd.map Prod.fst) :
    (recordOne opts dep req rtd).map Prod.fst = rtd.map Prod.fst ++ [req] := by
  unfold recordOne
  rw [hex]
  simp only [Bool.false_and, Bool.false_eq_true, if_false]
  by_cases hnull : dep.isNull = false
  · rw [if_pos hnull, map_fst_odInsert, if_neg h]
  · rw [if_neg hnull, hrn, if_pos rfl, map_fst_odInsert, if_neg h]

/-- Recording a single-item result for a requirement different from R leaves
the lookup at R unchanged. -/
theorem odLookup_recordOne_ne (opts : ResolveOpts) (dep : Dependency)
    (req : ToolRequirement) (rtd : OD) {R : ToolRequirement} (hne : req ≠ R) :
    odLookup (recordOne opts dep req rtd) R = odLookup rtd R := by
  unfold recordOne
  split_ifs <;> first
    | rfl
    | exact odLookup_odInsert_ne hne

/-- Every entry after recording a single-item result is an old entry, the
resolved dependency, or the version-overwritten Null dependency. -/
theorem mem_recordOne (opts : ResolveOpts) (dep : Dependency) (req : ToolRequirement)
    (rtd : OD) {p : ToolRequirement × Dependency} (hp : p ∈ recordOne opts dep req rtd) :
    p ∈ rtd ∨ p = (req, dep) ∨ p = (req, { dep with version := req.version }) := by
  unfold recordOne at hp
  split_ifs at hp
  · exact Or.inl hp
  · rcases mem_odInsert hp with h1 | h1
    · exact Or.inl h1
    · exact Or.inr (Or.inl h1)
  · rcases mem_odInsert hp with h1 | h1
    · exact Or.inl h1
    · exact Or.inr (Or.inr h1)
  · exact Or.inl hp

/-- A per-item pass over requirements whose keys are all present leaves the
key sequence unchanged. -/
theorem perItemPass_map_fst_of_subset (opts : ResolveOpts) (r : Resolver)
    (snapKeys : List ToolRequirement) (reqs : List ToolRequirement) :
    ∀ rtd : OD, (∀ q ∈ reqs, q ∈ rtd.map Prod.fst) →
      (perItemPass opts r snapKeys reqs rtd).map Prod.fst = rtd.map Prod.fst := by
  induction reqs with
  | nil => intro rtd _; rfl
  | cons req rest ih =>
    intro rtd h
    by_cases hs : req ∈ snapKeys
    · rw [perItemPass, if_pos hs]
      exact ih rtd (fun q hq => h q (List.mem_cons_of_mem _ hq))
    · rw [perItemPass, if_neg hs]
      have hkeys := map_fst_recordOne_of_mem opts (r.resolve req) req rtd
        (h req (List.mem_cons_self _ _))
      rw [ih _ (fun q hq => by rw [hkeys]; exact h q (List.mem_cons_of_mem _ hq)), hkeys]

/-- With return_null set and no exactness requirement, a per-item pass over
fresh, pairwise-distinct, unsnapshotted requirements appends exactly those
keys in order. -/
theorem perItemPass_returnNull_map_fst (opts : ResolveOpts) (r : Resolver)
    (snapKeys : List ToolRequirement) (hrn : opts.return_null = true)
    (hex : opts.exact = false) (reqs : List ToolRequirement) :
    ∀ rtd : OD, (∀ q ∈ reqs, q ∉ snapKeys) → (rtd.map Prod.fst ++ reqs).Nodup →
      (perItemPass opts r snapKeys reqs rtd).map Prod.fst = rtd.map Prod.fst ++ reqs := by
  induction reqs with
  | nil => intro rtd _ _; simp [perItemPass]
  | cons req rest ih =>
    intro rtd hs hnd
    have hreq : req ∉ snapKeys := hs req (List.mem_cons_self _ _)
    have hnotin : req ∉ rtd.map Prod.fst := by
      rcases List.nodup_append.mp hnd with ⟨_, _, hdisj⟩
      intro hmem
      exact hdisj hmem (by simp)
    have hkeys := map_fst_recordOne_returnNull opts (r.resolve req) req rtd hrn hex hnotin
    have hnd' : ((rtd.map Prod.fst ++ [req]) ++ rest).Nodup := by
      rw [List.append_assoc, List.singleton_append]
      exact hnd
    rw [perItemPass, if_neg hreq,
      ih _ (fun q hq => hs q (List.mem_cons_of_mem _ hq)) (by rw [hkeys]; exact hnd'), hkeys,
      List.append_assoc, List.singleton_append]

/-- A per-item pass leaves the lookup at a snapshotted requirement
unchanged. -/
theorem perItemPass_odLookup_preserved (opts : ResolveOpts) (r : Resolver)
    (snapKeys : List ToolRequirement) {R : ToolRequirement} (hR : R ∈ snapKeys)
    (reqs : List ToolRequirement) :
    ∀ rtd : OD, odLookup (perItemPass opts r snapKeys reqs rtd) R = odLookup rtd R := by
  induction reqs with
  | nil => intro rtd; rfl
  | cons req rest ih =>
    intro rtd
    by_cases hs : req ∈ snapKeys
    · rw [perItemPass, if_pos hs, ih]
    · have hne : req ≠ R := fun h => hs (h ▸ hR)
      rw [perItemPass, if_neg hs, ih, odLookup_recordOne_ne _ _ _ _ hne]

/-- With exact required, every non-Null value a recordOne step can produce is
exact. -/
theorem recordOne_exact_invariant (opts : ResolveOpts) (dep : Dependency)
    (req : ToolRequirement) (rtd : OD) (hex : opts.exact = true)
    (hinv : ∀ p ∈ rtd, p.2.isNull = false → p.2.exact = true) :
    ∀ p ∈ recordOne opts dep req rtd, p.2.isNull = false → p.2.exact = true := by
  intro p hp hnull
  unfold recordOne at hp
  by_cases hde : dep.exact = true
  · rw [hex, hde] at hp
    simp only [Bool.not_true, Bool.and_false, Bool.false_eq_true, if_false] at hp
    by_cases hdn : dep.isNull = false
    · rw [if_pos hdn] at hp
      rcases mem_odInsert hp with h1 | h1
      · exact hinv p h1 hnull
      · rw [h1]; exact hde
    · rw [if_neg hdn] at hp
      by_cases hrn : opts.return_null = true
      · rw [hrn, if_pos rfl] at hp
        rcases mem_odInsert hp with h1 | h1
        · exact hinv p h1 hnull
        · exfalso
          rw [h1] at hnull
          simp only at hnull
          exact hdn hnull
      · simp only [Bool.not_eq_true] at hrn
        rw [hrn] at hp
        simp only [Bool.false_eq_true, if_false] at hp
        exact hinv p hp hnull
  · simp only [Bool.not_eq_true] at hde
    rw [hex, hde] at hp
    simp only [Bool.not_false, Bool.and_true, if_true] at hp
    exact hinv p hp hnull

/-- With exact required, a per-item pass preserves the all-non-Null-values-
are-exact invariant. -/
theorem perItemPass_exact_invariant (opts : ResolveOpts) (r : Resolver)
    (snapKeys : List ToolRequirement) (hex : opts.exact = true)
    (reqs : List ToolRequirement) :
    ∀ rtd : OD, (∀ p ∈ rtd, p.2.isNull = false → p.2.exact = true) →
      ∀ p ∈ perItemPass opts r snapKeys reqs rtd, p.2.isNull = false → p.2.exact = true := by
  induction reqs with
  | nil => intro rtd hinv; exact hinv
  | cons req rest ih =>
    intro rtd hinv
    by_cases hs : req ∈ snapKeys
    · rw [perItemPass, if_pos hs]
      exact ih rtd hinv
    · rw [perItemPass, if_neg hs]
      exact ih _ (recordOne_exact_invariant opts (r.resolve req) req rtd hex hinv)

/-- Line 164-166: once the non-null entries cover every resolvable
requirement, the remaining chain is never consulted and the dict is returned
as is. -/
theorem resolveLoop_early_stop (opts : ResolveOpts) (resolvable : List ToolRequirement)
    (rs : List Resolver) :
    ∀ (i : Nat) (rtd : OD), (nonNullEntries rtd).length = resolvable.length →
      resolveLoop opts resolvable rs i rtd = rtd := by
  induction rs with
  | nil => intro i rtd _; rfl
  | cons r rest ih =>
    intro i rtd h
    rw [resolveLoop]
    by_cases h1 : indexSkip opts.index i
    · rw [if_pos h1, ih _ _ h]
    · rw [if_neg h1]
      by_cases h2 : typeSkip opts.resolver_type r
      · rw [if_pos h2, ih _ _ h]
      · rw [if_neg h2, if_pos h]

/-- Chain precedence: once a requirement is recorded with a non-Null
dependency, walking any remaining chain never changes its value — later
resolvers are skipped for it (line 206-207) and the batch path cannot fire
(line 173: not all requirements are unmet). -/
theorem resolveLoop_odLookup_preserved (opts : ResolveOpts)
    (resolvable : List ToolRequirement) (rs : List Resolver) :
    ∀ (i : Nat) (rtd : OD) {R : ToolRequirement} {v : Dependency},
      odLookup rtd R = some v → v.isNull = false →
      odLookup (resolveLoop opts resolvable rs i rtd) R = some v := by
  induction rs with
  | nil => intro i rtd R v h _; exact h
  | cons r rest ih =>
    intro i rtd R v h hv
    have hmem : (R, v) ∈ nonNullEntries rtd := by
      apply List.mem_filter.mpr
      refine ⟨odLookup_eq_some_mem h, ?_⟩
      simp [hv]
    have hne : nonNullEntries rtd ≠ [] := fun hnil => by simp [hnil] at hmem
    have hisEmpty : (nonNullEntries rtd).isEmpty = false := by
      rw [List.isEmpty_eq_false]
      exact hne
    have hRsnap : R ∈ (nonNullEntries rtd).map Prod.fst :=
      List.mem_map.mpr ⟨(R, v), hmem, rfl⟩
    rw [resolveLoop]
    by_cases h1 : indexSkip opts.index i
    · rw [if_pos h1]; exact ih _ _ h hv
    · rw [if_neg h1]
      by_cases h2 : typeSkip opts.resolver_type r
      · rw [if_pos h2]; exact ih _ _ h hv
      · rw [if_neg h2]
        by_cases h3 : (nonNullEntries rtd).length = resolvable.length
        · rw [if_pos h3]; exact h
        · rw [if_neg h3]
          by_cases h4 : strStartsWith r.resolver_type "build_mulled" && !opts.install
          · rw [if_pos h4]; exact ih _ _ h hv
          · rw [if_neg h4]
            by_cases h5 : !r.hasResolveAll && r.isContainer && !containerBatchAllowed opts r
            · rw [if_pos h5]; exact ih _ _ h hv
            · rw [if_neg h5]
              have h6 : ((nonNullEntries rtd).isEmpty &&
                  (r.hasResolveAll || r.isContainer)) = false := by
                rw [hisEmpty, Bool.false_and]
              rw [h6]
              simp only [Bool.false_eq_true, if_false]
              by_cases h7 : r.isContainer
              · rw [if_pos h7]; exact ih _ _ h hv
              · rw [if_neg h7]
                apply ih
                · rw [perItemPass_odLookup_preserved opts r _ hRsnap _ rtd]
                  exact h
                · exact hv

/-- With exact required and a chain of plain per-item resolvers (no batch
capability, no container resolvers), every non-Null value ever recorded is
exact (lines 209-211). -/
theorem resolveLoop_exact_invariant (opts : ResolveOpts)
    (resolvable : List ToolRequirement) (rs : List Resolver)
    (hex : opts.exact = true)
    (hnb : ∀ r ∈ rs, r.hasResolveAll = false ∧ r.isContainer = false) :
    ∀ (i : Nat) (rtd : OD), (∀ p ∈ rtd, p.2.isNull = false → p.2.exact = true) →
      ∀ p ∈ resolveLoop opts resolvable rs i rtd, p.2.isNull = false → p.2.exact = true := by
  induction rs with
  | nil => intro i rtd hinv; exact hinv
  | cons r rest ih =>
    intro i rtd hinv
    have hr := hnb r (List.mem_cons_self _ _)
    have hrest : ∀ r' ∈ rest, r'.hasResolveAll = false ∧ r'.isContainer = false :=
      fun r' hr' => hnb r' (List.mem_cons_of_mem _ hr')
    rw [resolveLoop]
    by_cases h1 : indexSkip opts.index i
    · rw [if_pos h1]; exact ih hrest _ _ hinv
    · rw [if_neg h1]
      by_cases h2 : typeSkip opts.resolver_type r
      · rw [if_pos h2]; exact ih hrest _ _ hinv
      · rw [if_neg h2]
        by_cases h3 : (nonNullEntries rtd).length = resolvable.length
        · rw [if_pos h3]; exact hinv
        · rw [if_neg h3]
          by_cases h4 : strStartsWith r.resolver_type "build_mulled" && !opts.install
          · rw [if_pos h4]; exact ih hrest _ _ hinv
          · rw [if_neg h4]
            have h5 : (!r.hasResolveAll && r.isContainer &&
                !containerBatchAllowed opts r) = false := by
              rw [hr.2, Bool.and_false, Bool.false_and]
            rw [h5]
            simp only [Bool.false_eq_true, if_false]
            have h6 : ((nonNullEntries rtd).isEmpty &&
                (r.hasResolveAll || r.isContainer)) = false := by
              rw [hr.1, hr.2, Bool.or_false, Bool.and_false]
            rw [h6]
            simp only [Bool.false_eq_true, if_false]
            rw [hr.2]
            simp only [Bool.false_eq_true, if_false]
            exact ih hrest _ _
              (perItemPass_exact_invariant opts r _ hex resolvable rtd hinv)

/-- With return_null set and no exactness requirement, the key sequence of the
dict is at all times either empty or exactly the resolvable order: the first
recording pass (batch or per-item) records every resolvable requirement in
input order, and later passes only update values in place. -/
theorem resolveLoop_keys_returnNull (opts : ResolveOpts)
    (resolvable : List ToolRequirement) (hrn : opts.return_null = true)
    (hex : opts.exact = false) (hnd : resolvable.Nodup) (rs : List Resolver) :
    ∀ (i : Nat) (rtd : OD),
      (∀ r ∈ rs, ∀ ds, batchResultDeps r resolvable = some ds →
        ds.length = resolvable.length) →
      (rtd.map Prod.fst = [] ∨ rtd.map Prod.fst = resolvable) →
      ((resolveLoop opts resolvable rs i rtd).map Prod.fst = [] ∨
        (resolveLoop opts resolvable rs i rtd).map Prod.fst = resolvable) := by
  induction rs with
  | nil => intro i rtd _ hinv; exact hinv
  | cons r rest ih =>
    intro i rtd hbatch hinv
    have hbrest : ∀ r' ∈ rest, ∀ ds, batchResultDeps r' resolvable = some ds →
        ds.length = resolvable.length :=
      fun r' hr' => hbatch r' (List.mem_cons_of_mem _ hr')
    have hper : (perItemPass opts r ((nonNullEntries rtd).map Prod.fst) resolvable rtd).map
          Prod.fst = [] ∨
        (perItemPass opts r ((nonNullEntries rtd).map Prod.fst) resolvable rtd).map
          Prod.fst = resolvable := by
      rcases hinv with hk | hk
      · right
        have hrtd : rtd = [] := List.map_eq_nil_iff.mp hk
        subst hrtd
        have hres := perItemPass_returnNull_map_fst opts r
          ((nonNullEntries ([] : OD)).map Prod.fst) hrn hex resolvable []
          (by simp [nonNullEntries]) (by simpa using hnd)
        simpa using hres
      · right
        rw [perItemPass_map_fst_of_subset opts r _ resolvable rtd
          (fun q hq => by rw [hk]; exact hq), hk]
    rw [resolveLoop]
    by_cases h1 : indexSkip opts.index i
    · rw [if_pos h1]; exact ih _ _ hbrest hinv
    · rw [if_neg h1]
      by_cases h2 : typeSkip opts.resolver_type r
      · rw [if_pos h2]; exact ih _ _ hbrest hinv
      · rw [if_neg h2]
        by_cases h3 : (nonNullEntries rtd).length = resolvable.length
        · rw [if_pos h3]; exact hinv
        · rw [if_neg h3]
          by_cases h4 : strStartsWith r.resolver_type "build_mulled" && !opts.install
          · rw [if_pos h4]; exact ih _ _ hbrest hinv
          · rw [if_neg h4]
            by_cases h5 : !r.hasResolveAll && r.isContainer && !containerBatchAllowed opts r
            · rw [if_pos h5]; exact ih _ _ hbrest hinv
            · rw [if_neg h5]
              by_cases h6 : (nonNullEntries rtd).isEmpty && (r.hasResolveAll || r.isContainer)
              · rw [if_pos h6]
                cases hbd : batchResultDeps r resolvable with
                | none =>
                  simp only [hbd]
                  by_cases h7 : r.isContainer
                  · rw [if_pos h7]; exact ih _ _ hbrest hinv
                  · rw [if_neg h7]; exact ih _ _ hbrest hper
                | some ds =>
                  simp only [hbd]
                  have hlen : ds.length = resolvable.length :=
                    hbatch r (List.mem_cons_self _ _) ds hbd
                  have hzip : (resolvable.zip ds).map Prod.fst = resolvable :=
                    List.map_fst_zip resolvable ds (le_of_eq hlen.symm)
                  rcases hinv with hk | hk
                  · right
                    have hrtd : rtd = [] := List.map_eq_nil_iff.mp hk
                    subst hrtd
                    have hres := map_fst_insertAll_nodup (resolvable.zip ds) []
                      (by simpa [hzip] using hnd)
                    simpa [hzip] using hres
                  · right
                    rw [map_fst_insertAll_of_subset (resolvable.zip ds) rtd
                      (fun p hp => by
                        rw [hk, ← hzip]
                        exact List.mem_map.mpr ⟨p, hp, rfl⟩), hk]
              · rw [if_neg h6]
                by_cases h7 : r.isContainer
                · rw [if_pos h7]; exact ih _ _ hbrest hinv
                · rw [if_neg h7]; exact ih _ _ hbrest hper

/-- Character codes determine the character. -/
theorem charToNat_injective : Function.Injective Char.toNat := by
  intro a b h
  have hab := congrArg Char.ofNat h
  rwa [Char.ofNat_toNat, Char.ofNat_toNat] at hab

/-- The sort key of an optional string determines the optional string. -/
theorem keyOpt_injective : Function.Injective keyOpt := by
  intro a b h
  cases a with
  | none =>
    cases b with
    | none => rfl
    | some t => exact absurd h WithBot.bot_ne_coe
  | some s =>
    cases b with
    | none => exact absurd h WithBot.coe_ne_bot
    | some t =>
      have hdata : s.data.map Char.toNat = t.data.map Char.toNat :=
        WithBot.coe_inj.mp h
      have hst : s.data = t.data :=
        (List.map_injective_iff.mpr charToNat_injective) hdata
      cases s; cases t
      exact congrArg (fun d => some (String.mk d)) hst

/-- The full sort key determines the dependency tuple. -/
theorem depKey_injective : Function.Injective depKey := by
  intro a b h
  obtain ⟨a1, a2, a3, a4⟩ := a
  obtain ⟨b1, b2, b3, b4⟩ := b
  unfold depKey at h
  have h1 := toLex.injective h
  have h11 : keyOpt a1 = keyOpt b1 := congrArg Prod.fst h1
  have h12 := toLex.injective (congrArg Prod.snd h1)
  have h21 : keyOpt a2 = keyOpt b2 := congrArg Prod.fst h12
  have h22 := toLex.injective (congrArg Prod.snd h12)
  have h31 : a3 = b3 := congrArg Prod.fst h22
  have h41 : keyOpt a4 = keyOpt b4 := congrArg Prod.snd h22
  rw [keyOpt_injective h11, keyOpt_injective h21, h31, keyOpt_injective h41]

instance : IsTotal DepTuple pyLe :=
  ⟨fun a b => le_total (depKey a) (depKey b)⟩

instance : IsTrans DepTuple pyLe :=
  ⟨fun _ _ _ hab hbc => le_trans hab hbc⟩

instance : IsAntisymm DepTuple pyLe :=
  ⟨fun _ _ hab hba => depKey_injective (le_antisymm hab hba)⟩

/-- sorted() is a function of the multiset of tuples: permuted inputs sort to
the same list. -/
theorem insertionSort_pyLe_eq_of_perm {l1 l2 : List DepTuple} (h : l1.Perm l2) :
    List.insertionSort pyLe l1 = List.insertionSort pyLe l2 :=
  List.eq_of_perm_of_sorted
    ((List.perm_insertionSort pyLe l1).trans (h.trans (List.perm_insertionSort pyLe l2).symm))
    (List.sorted_insertionSort pyLe l1) (List.sorted_insertionSort pyLe l2)

/-- Every digit produced for a value below 16 is a hex character. -/
theorem hexDigit_mem_hexChars {m : Nat} (h : m < 16) : hexDigit m ∈ hexChars := by
  interval_cases m <;> decide

/-- The padded hex rendering has exactly the requested width. -/
theorem natToHexPadded_length (n w : Nat) : (natToHexPadded n w).data.length = w := by
  simp [natToHexPadded]

/-- Every character of the padded hex rendering is a hex character. -/
theorem natToHexPadded_mem {n w : Nat} {c : Char} (h : c ∈ (natToHexPadded n w).data) :
    c ∈ hexChars := by
  simp only [natToHexPadded] at h
  rcases List.mem_map.mp h with ⟨j, _, rfl⟩
  exact hexDigit_mem_hexChars (Nat.mod_lt _ (by norm_num))

/-- The dependency-set digest is exactly 8 characters. -/
theorem hash_dependencies_length (l : List Dependency) :
    (hash_dependencies l).length = 8 := by
  show ((new_secure_hash _).data.take 8).length = 8
  rw [List.length_take]
  unfold new_secure_hash
  rw [natToHexPadded_length]
  decide

/-- The dependency-set digest is made of hex characters only. -/
theorem hash_dependencies_hex (l : List Dependency) :
    ∀ c ∈ (hash_dependencies l).data, c ∈ hexChars := by
  intro c hc
  have hc' : c ∈ (new_secure_hash (jsonList
      (List.insertionSort pyLe (l.map depTuple)))).data :=
    List.take_subset 8 _ hc
  unfold new_secure_hash at hc'
  exact natToHexPadded_mem hc'

/-- Concrete requirement: samtools 1.9 package. -/
def reqSamtools : ToolRequirement :=
  { name := "samtools", version := some "1.9", type := "package" }

/-- Concrete requirement: bwa 0.7 package. -/
def reqBwa : ToolRequirement :=
  { name := "bwa", version := some "0.7", type := "package" }

/-- Concrete resolved package dependency for samtools. -/
def depSamtools : Dependency :=
  { name := some "samtools", version := some "1.9", exact := true,
    dependency_type := some "package", cacheable := true, isNull := false,
    isContainer := false, container := none, shell_command := "activate samtools" }

/-- Concrete resolved package dependency for bwa. -/
def depBwa : Dependency :=
  { name := some "bwa", version := some "0.7", exact := true,
    dependency_type := some "package", cacheable := true, isNull := false,
    isContainer := false, container := none, shell_command := "activate bwa" }

/-- Concrete non-exact (versionless) resolution for bwa. -/
def depBwaInexact : Dependency :=
  { name := some "bwa", version := some "0.9", exact := false,
    dependency_type := some "package", cacheable := true, isNull := false,
    isContainer := false, container := none, shell_command := "activate bwa-0.9" }

/-- Concrete Null dependency for samtools. -/
def nullSamtools : Dependency := NullDependency "samtools" (some "1.9")

/-- A chain in which the first resolver can only resolve bwa and the second
only samtools. -/
def cexOrderMgr : DependencyManager :=
  { dependency_resolvers :=
      [plainResolver "galaxy_packages" (fun r => if r = reqSamtools then nullSamtools else depBwa),
       plainResolver "conda" (fun _ => depSamtools)] }

/-- The two-requirement input [samtools, bwa]. -/
def cexOrderReqs : ToolRequirements := { tool_requirements := [reqSamtools, reqBwa] }

/-- No plain per-item resolver ever yields a truthy batch result. -/
theorem batchResultDeps_plainResolver (t : String) (f : ToolRequirement → Dependency)
    (l : List ToolRequirement) : batchResultDeps (plainResolver t f) l = none := rfl

/-- C1 counterexample: with the default call options, when the first resolver
resolves only the later requirement (bwa) and the second resolver fills in the
earlier one (samtools), the returned OrderedDict's keys come out in insertion
order [bwa, samtools], not in the input resolvable order [samtools, bwa]. -/
theorem order_preservation_counterexample :
    cexOrderReqs.resolvable = [reqSamtools, reqBwa] ∧
      (requirements_to_dependencies_dict cexOrderMgr defaultOpts cexOrderReqs).map Prod.fst =
        [reqBwa, reqSamtools] ∧
      (requirements_to_dependencies_dict cexOrderMgr defaultOpts cexOrderReqs).map Prod.fst ≠
        cexOrderReqs.resolvable := by
  decide

/-- C1 (amended): the result's key order is the order in which requirements
were first recorded, which can deviate from the resolvable order; when
return_null is set and exact is not, every recording pass records all
requirements in resolvable order, so the returned mapping's key order matches
the input's resolvable order (or the mapping is empty when no resolver
recorded anything). The batch contract hypothesis mirrors the source's assert
on line 194. -/
theorem order_preservation_return_null (mgr : DependencyManager) (opts : ResolveOpts)
    (reqs : ToolRequirements) (hrn : opts.return_null = true) (hex : opts.exact = false)
    (hnd : reqs.resolvable.Nodup)
    (hbatch : ∀ r ∈ mgr.dependency_resolvers, ∀ ds,
      batchResultDeps r reqs.resolvable = some ds → ds.length = reqs.resolvable.length) :
    (requirements_to_dependencies_dict mgr opts reqs).map Prod.fst = [] ∨
      (requirements_to_dependencies_dict mgr opts reqs).map Prod.fst = reqs.resolvable :=
  resolveLoop_keys_returnNull opts reqs.resolvable hrn hex hnd mgr.dependency_resolvers 0 []
    hbatch (Or.inl rfl)

/-- Witness for C1 (amended) at the two-resolver, two-requirement instance. -/
theorem order_preservation_return_null_witness :
    (requirements_to_dependencies_dict cexOrderMgr returnNullOpts cexOrderReqs).map Prod.fst =
        [] ∨
      (requirements_to_dependencies_dict cexOrderMgr returnNullOpts cexOrderReqs).map Prod.fst =
        cexOrderReqs.resolvable :=
  order_preservation_return_null cexOrderMgr returnNullOpts cexOrderReqs rfl rfl (by decide)
    (by
      intro r hr ds hds
      rcases List.mem_cons.mp hr with h | h
      · rw [h, batchResultDeps_plainResolver] at hds
        cases hds
      · rcases List.mem_cons.mp h with h2 | h2
        · rw [h2, batchResultDeps_plainResolver] at hds
          cases hds
        · cases h2)

/-- C2: batch exclusivity. If a consulted resolver's batch invocation yields a
truthy result while no requirement is yet met, the whole result is recorded
(one dependency per resolvable requirement, per the source's assert on line
194, here the hlen hypothesis) and the loop breaks: the returned dict does not
depend on the rest of the chain, and every resolvable requirement is among its
keys. -/
theorem batch_exclusivity (opts : ResolveOpts) (resolvable : List ToolRequirement)
    (r : Resolver) (rest : List Resolver) (i : Nat) (rtd : OD) (ds : List Dependency)
    (hidx : indexSkip opts.index i = false)
    (htyp : typeSkip opts.resolver_type r = false)
    (hunmet : nonNullEntries rtd = [])
    (hres : resolvable ≠ [])
    (hbm : (strStartsWith r.resolver_type "build_mulled" && !opts.install) = false)
    (hskip : (!r.hasResolveAll && r.isContainer && !containerBatchAllowed opts r) = false)
    (hB : (r.hasResolveAll || r.isContainer) = true)
    (hds : batchResultDeps r resolvable = some ds)
    (hlen : ds.length = resolvable.length) :
    resolveLoop opts resolvable (r :: rest) i rtd = insertAll rtd (resolvable.zip ds) ∧
      ∀ req ∈ resolvable, req ∈ (insertAll rtd (resolvable.zip ds)).map Prod.fst := by
  have hlen0 : ¬(nonNullEntries rtd).length = resolvable.length := by
    rw [hunmet]
    simp only [List.length_nil]
    intro h0
    exact hres (List.length_eq_zero.mp h0.symm)
  have hisEmpty : (nonNullEntries rtd).isEmpty = true := by
    rw [hunmet]; rfl
  constructor
  · rw [resolveLoop, if_neg (by rw [hidx]; exact Bool.false_ne_true),
      if_neg (by rw [htyp]; exact Bool.false_ne_true), if_neg hlen0,
      if_neg (by rw [hbm]; exact Bool.false_ne_true),
      if_neg (by rw [hskip]; exact Bool.false_ne_true),
      if_pos (by rw [hisEmpty, hB]; rfl)]
    simp only [hds]
  · intro req hreq
    apply mem_map_fst_insertAll
    rw [List.map_fst_zip resolvable ds (le_of_eq hlen.symm)]
    exact hreq

/-- A batch-capable resolver answering every requirement with the same fixed
dependency list. -/
def mulledResolver : Resolver :=
  { resolver_type := "mulled", isContainer := false, hasResolveAll := true,
    resolveAll := fun rs => BatchResult.deps (rs.map (fun _ => depSamtools)),
    resolve := fun q => NullDependency q.name q.version }

/-- Witness for C2 at a one-requirement chain with a trailing resolver that is
never consulted. -/
theorem batch_exclusivity_witness :
    resolveLoop defaultOpts [reqSamtools]
        [mulledResolver, plainResolver "conda" (fun _ => depBwa)] 0 [] =
      insertAll [] ([reqSamtools].zip [depSamtools]) ∧
      reqSamtools ∈ (insertAll [] ([reqSamtools].zip [depSamtools])).map Prod.fst :=
  ⟨(batch_exclusivity defaultOpts [reqSamtools] mulledResolver
      [plainResolver "conda" (fun _ => depBwa)] 0 [] [depSamtools] rfl rfl rfl (by decide)
      (by decide) (by decide) rfl rfl rfl).1,
   (batch_exclusivity defaultOpts [reqSamtools] mulledResolver
      [plainResolver "conda" (fun _ => depBwa)] 0 [] [depSamtools] rfl rfl rfl (by decide)
      (by decide) (by decide) rfl rfl rfl).2 reqSamtools (by decide)⟩

/-- C3: chain precedence and early stop. Once a requirement R is recorded with
a non-Null dependency (an earlier resolver's answer), the final mapping's value
for R after walking any remaining chain is still that answer — later resolvers
are skipped for R (lines 206-207) and the batch path cannot fire for the call
(line 173) — and once every resolvable requirement is met the remaining chain
is not consulted at all (lines 164-166). -/
theorem chain_precedence_early_stop (opts : ResolveOpts)
    (resolvable : List ToolRequirement) (rs : List Resolver) (i : Nat) (rtd : OD)
    (R : ToolRequirement) (v : Dependency)
    (h : odLookup rtd R = some v) (hv : v.isNull = false) :
    odLookup (resolveLoop opts resolvable rs i rtd) R = some v ∧
      ((nonNullEntries rtd).length = resolvable.length →
        resolveLoop opts resolvable rs i rtd = rtd) :=
  ⟨resolveLoop_odLookup_preserved opts resolvable rs i rtd h hv,
   fun hall => resolveLoop_early_stop opts resolvable rs i rtd hall⟩

/-- Witness for C3: samtools is already met, so the remaining conda resolver
changes nothing. -/
theorem chain_precedence_early_stop_witness :
    odLookup (resolveLoop defaultOpts [reqSamtools]
        [plainResolver "conda" (fun _ => depBwa)] 0 [(reqSamtools, depSamtools)])
        reqSamtools = some depSamtools ∧
      resolveLoop defaultOpts [reqSamtools] [plainResolver "conda" (fun _ => depBwa)] 0
        [(reqSamtools, depSamtools)] = [(reqSamtools, depSamtools)] :=
  ⟨(chain_precedence_early_stop defaultOpts [reqSamtools]
      [plainResolver "conda" (fun _ => depBwa)] 0 [(reqSamtools, depSamtools)]
      reqSamtools depSamtools (by decide) rfl).1,
   (chain_precedence_early_stop defaultOpts [reqSamtools]
      [plainResolver "conda" (fun _ => depBwa)] 0 [(reqSamtools, depSamtools)]
      reqSamtools depSamtools (by decide) rfl).2 (by decide)⟩

/-- Call options with only exact set. -/
def exactOpts : ResolveOpts :=
  { index := none, install := false, resolver_type := none, exact := true,
    return_null := false, search := false }

/-- A batch-capable resolver answering every requirement with a fixed
non-exact dependency. -/
def mulledInexactResolver : Resolver :=
  { resolver_type := "mulled", isContainer := false, hasResolveAll := true,
    resolveAll := fun rs => BatchResult.deps (rs.map (fun _ => depBwaInexact)),
    resolve := fun q => NullDependency q.name q.version }

/-- The one-requirement input [bwa]. -/
def reqsBwa : ToolRequirements := { tool_requirements := [reqBwa] }

/-- C4 counterexample: with exact set, a batch resolver's non-exact result is
recorded anyway — the batch path (lines 184-200) never consults the exact
flag, so the final mapping contains a non-exact non-Null dependency. -/
theorem exactness_filter_counterexample :
    odLookup (requirements_to_dependencies_dict
        { dependency_resolvers := [mulledInexactResolver] } exactOpts reqsBwa) reqBwa =
      some depBwaInexact ∧
      depBwaInexact.exact = false ∧ depBwaInexact.isNull = false := by
  decide

/-- C4 (amended): the exactness filter governs only the per-item path. With
exact set and a chain of plain per-item resolvers (no batch capability, no
container resolvers), a resolver's non-exact result for R contributes nothing
(line 210-211) and every non-Null value of the final mapping is exact; a batch
result, however, is recorded without the exactness check. -/
theorem exactness_filter_per_item (mgr : DependencyManager) (opts : ResolveOpts)
    (reqs : ToolRequirements) (hex : opts.exact = true)
    (hnb : ∀ r ∈ mgr.dependency_resolvers, r.hasResolveAll = false ∧ r.isContainer = false) :
    ∀ p ∈ requirements_to_dependencies_dict mgr opts reqs,
      p.2.isNull = false → p.2.exact = true :=
  resolveLoop_exact_invariant opts reqs.resolvable mgr.dependency_resolvers hex hnb 0 []
    (fun p hp => absurd hp (List.not_mem_nil p))

/-- A per-item chain in which the first resolver answers bwa non-exactly and
the second exactly. -/
def perItemExactMgr : DependencyManager :=
  { dependency_resolvers :=
      [plainResolver "galaxy_packages" (fun _ => depBwaInexact),
       plainResolver "conda" (fun _ => depBwa)] }

/-- Witness for C4 (amended): in the per-item chain the non-exact first answer
is discarded, the exact second answer is recorded, and it satisfies the
invariant. -/
theorem exactness_filter_per_item_witness :
    depBwa.exact = true :=
  exactness_filter_per_item perItemExactMgr exactOpts reqsBwa rfl
    (by
      intro r hr
      rcases List.mem_cons.mp hr with h | h
      · rw [h]; exact ⟨rfl, rfl⟩
      · rcases List.mem_cons.mp h with h2 | h2
        · rw [h2]; exact ⟨rfl, rfl⟩
        · cases h2)
    (reqBwa, depBwa) (by decide) rfl

/-- A string made of hex characters only, as a Boolean check. -/
def isHexString (s : String) : Bool :=
  s.data.all (fun c => hexChars.contains c)

/-- The digest is a hex string (Boolean form). -/
theorem hash_dependencies_isHex (l : List Dependency) :
    isHexString (hash_dependencies l) = true := by
  unfold isHexString
  rw [List.all_eq_true]
  intro c hc
  exact List.elem_eq_true_of_mem (hash_dependencies_hex l c hc)

/-- C5: hash_dependencies is a function of only the multiset of
(name, version, exact, dependency_type) tuples of its input — two inputs whose
tuple lists are permutations of each other (in particular, inputs that agree
pointwise on those four attributes, or are reorderings) hash identically — and
the digest is always exactly 8 hex characters, the same across any two calls
on equal inputs since the function is pure. -/
theorem hash_dependencies_deterministic (l1 l2 : List Dependency)
    (h : (l1.map depTuple).Perm (l2.map depTuple)) :
    hash_dependencies l1 = hash_dependencies l2 ∧
      (hash_dependencies l1).length = 8 ∧
      isHexString (hash_dependencies l1) = true := by
  refine ⟨?_, hash_dependencies_length l1, hash_dependencies_isHex l1⟩
  unfold hash_dependencies
  rw [insertionSort_pyLe_eq_of_perm h]

/-- Witness for C5 at the spec's two-element example, swapped. -/
theorem hash_dependencies_deterministic_witness :
    hash_dependencies [depSamtools, depBwaInexact] =
        hash_dependencies [depBwaInexact, depSamtools] ∧
      (hash_dependencies [depSamtools, depBwaInexact]).length = 8 ∧
      isHexString (hash_dependencies [depSamtools, depBwaInexact]) = true :=
  hash_dependencies_deterministic [depSamtools, depBwaInexact] [depBwaInexact, depSamtools]
    (List.Perm.swap _ _ _)

/-- C6: cache idempotence. When the hashed cache directory for the resolved
cacheable dependencies already exists and force_rebuild is false, build_cache
returns immediately: no dependency build routine runs, nothing is deleted, and
the filesystem is unchanged — so a second call on identical resolved
dependencies is equally a no-op. -/
theorem build_cache_idempotent (mgr : CachedDependencyManager) (fs : FSState)
    (reqs : ToolRequirements) (opts : ResolveOpts) (rmtreeOk : Bool)
    (h : cacheDirOf mgr opts reqs ∈ fs.existingDirs) :
    build_cache mgr fs reqs opts false rmtreeOk = Except.ok (fs, []) := by
  have h' : get_hashed_dependencies_path mgr (cacheableOf mgr opts reqs) ∈
      fs.existingDirs := h
  unfold build_cache
  rw [if_pos h']
  rfl

/-- A cached manager over a single conda resolver. -/
def cacheMgr : CachedDependencyManager :=
  { manager := { dependency_resolvers := [plainResolver "conda" (fun _ => depSamtools)] },
    tool_dependency_cache_dir := "/cache", precache_dependencies := true }

/-- The one-requirement input [samtools]. -/
def reqsSamtools : ToolRequirements := { tool_requirements := [reqSamtools] }

/-- A filesystem on which the hashed cache directory already exists. -/
def fsWithCache : FSState :=
  { existingDirs := [cacheDirOf cacheMgr defaultOpts reqsSamtools] }

/-- Witness for C6: the second call on the already-built cache is a no-op. -/
theorem build_cache_idempotent_witness :
    build_cache cacheMgr fsWithCache reqsSamtools defaultOpts false true =
      Except.ok (fsWithCache, []) :=
  build_cache_idempotent cacheMgr fsWithCache reqsSamtools defaultOpts true
    (List.mem_cons_self _ _)

/-- C7: forced rebuild deletion failure. When force_rebuild is true, the
hashed cache directory exists and its recursive deletion raises, build_cache
re-raises (lines 275-279): the call returns the error and no cacheable
dependency's build routine is invoked (an error return carries no filesystem
change and no build event). -/
theorem build_cache_forced_delete_failure (mgr : CachedDependencyManager) (fs : FSState)
    (reqs : ToolRequirements) (opts : ResolveOpts)
    (h : cacheDirOf mgr opts reqs ∈ fs.existingDirs) :
    build_cache mgr fs reqs opts true false =
      Except.error "Could not delete cached dependencies directory" := by
  have h' : get_hashed_dependencies_path mgr (cacheableOf mgr opts reqs) ∈
      fs.existingDirs := h
  unfold build_cache
  rw [if_pos h']
  rfl

/-- Witness for C7 on the existing cache directory. -/
theorem build_cache_forced_delete_failure_witness :
    build_cache cacheMgr fsWithCache reqsSamtools defaultOpts true false =
      Except.error "Could not delete cached dependencies directory" :=
  build_cache_forced_delete_failure cacheMgr fsWithCache reqsSamtools defaultOpts
    (List.mem_cons_self _ _)

/-- C8: null-safety. With an empty resolver chain (and for the
NullDependencyManager) find_dep returns, for every requested name, version and
type, a NullDependency carrying exactly that name and version; being a total
function of its inputs, it never raises. -/
theorem find_dep_null_safety (mgr : DependencyManager) (opts : ResolveOpts)
    (name : String) (version : Option String) (type : String)
    (h : mgr.dependency_resolvers = []) :
    DependencyManager.find_dep mgr opts name version type = NullDependency name version ∧
      NullDependencyManager.find_dep name version type = NullDependency name version := by
  constructor
  · unfold DependencyManager.find_dep requirements_to_dependencies_dict
    rw [h]
    rfl
  · rfl

/-- A manager with an empty resolver chain. -/
def emptyMgr : DependencyManager := { dependency_resolvers := [] }

/-- Witness for C8 at samtools 1.9. -/
theorem find_dep_null_safety_witness :
    DependencyManager.find_dep emptyMgr defaultOpts "samtools" (some "1.9") "package" =
        NullDependency "samtools" (some "1.9") ∧
      NullDependencyManager.find_dep "samtools" (some "1.9") "package" =
        NullDependency "samtools" (some "1.9") :=
  find_dep_null_safety emptyMgr defaultOpts "samtools" (some "1.9") "package" rfl

/-- C9: dependency_shell_commands resolves the requirements and always returns
one shell-command entry per resolved dependency, in resolution order; it
invokes build_cache first exactly when the hashed cache directory is absent
and precache_dependencies is set (line 296-298), and if the directory exists
at that point it records set_cache_path on every cacheable resolved dependency
before collecting the commands (lines 299-301). The four cases: directory
present (set only), absent without precache (neither), absent with precache
but nothing cacheable (build is a no-op, no set), absent with precache and
cacheable dependencies (build events then set events, directory created). -/
theorem dependency_shell_commands_spec (mgr : CachedDependencyManager) (fs : FSState)
    (reqs : ToolRequirements) (opts : ResolveOpts) (force_rebuild rmtreeOk : Bool) :
    (cacheDirOf mgr opts reqs ∈ fs.existingDirs →
      CachedDependencyManager.dependency_shell_commands mgr fs reqs opts force_rebuild rmtreeOk =
        Except.ok (fs,
          (cacheableOf mgr opts reqs).map
            (fun d => CacheEvent.setCachePath (cacheDirOf mgr opts reqs) d),
          (resolvedOf mgr opts reqs).map (fun p => p.2.shell_command))) ∧
    (cacheDirOf mgr opts reqs ∉ fs.existingDirs → mgr.precache_dependencies = false →
      CachedDependencyManager.dependency_shell_commands mgr fs reqs opts force_rebuild rmtreeOk =
        Except.ok (fs, [], (resolvedOf mgr opts reqs).map (fun p => p.2.shell_command))) ∧
    (cacheDirOf mgr opts reqs ∉ fs.existingDirs → mgr.precache_dependencies = true →
      cacheableOf mgr opts reqs = [] →
      CachedDependencyManager.dependency_shell_commands mgr fs reqs opts false rmtreeOk =
        Except.ok (fs, [], (resolvedOf mgr opts reqs).map (fun p => p.2.shell_command))) ∧
    (cacheDirOf mgr opts reqs ∉ fs.existingDirs → mgr.precache_dependencies = true →
      cacheableOf mgr opts reqs ≠ [] →
      CachedDependencyManager.dependency_shell_commands mgr fs reqs opts false rmtreeOk =
        Except.ok ({ existingDirs := fs.existingDirs ++ [cacheDirOf mgr opts reqs] },
          (cacheableOf mgr opts reqs).map
              (fun d => CacheEvent.builtDep (cacheDirOf mgr opts reqs) d) ++
            (cacheableOf mgr opts reqs).map
              (fun d => CacheEvent.setCachePath (cacheDirOf mgr opts reqs) d),
          (resolvedOf mgr opts reqs).map (fun p => p.2.shell_command))) := by
  refine ⟨?_, ?_, ?_, ?_⟩
  · intro h
    have h' : get_hashed_dependencies_path mgr (cacheableOf mgr opts reqs) ∈
        fs.existingDirs := h
    simp only [CachedDependencyManager.dependency_shell_commands]
    rw [if_pos h']
    simp only [cacheDirOf]
    rw [if_pos h']
    simp
  · intro h hpre
    have h' : get_hashed_dependencies_path mgr (cacheableOf mgr opts reqs) ∉
        fs.existingDirs := h
    simp only [CachedDependencyManager.dependency_shell_commands]
    rw [if_neg h', hpre]
    simp only [Bool.false_eq_true, if_false]
    rw [if_neg h']
  · intro h hpre hc
    have h' : get_hashed_dependencies_path mgr (cacheableOf mgr opts reqs) ∉
        fs.existingDirs := h
    simp only [CachedDependencyManager.dependency_shell_commands]
    rw [if_neg h', hpre]
    simp only [if_true]
    simp only [build_cache]
    rw [if_neg h']
    simp only [doBuild, hc, List.isEmpty_nil, if_true]
    split_ifs <;> simp
  · intro h hpre hc
    have h' : get_hashed_dependencies_path mgr (cacheableOf mgr opts reqs) ∉
        fs.existingDirs := h
    have hce : (cacheableOf mgr opts reqs).isEmpty = false :=
      List.isEmpty_eq_false.mpr hc
    simp only [CachedDependencyManager.dependency_shell_commands]
    rw [if_neg h', hpre]
    simp only [if_true]
    simp only [build_cache]
    rw [if_neg h']
    simp only [doBuild, hce, Bool.false_eq_true, if_false]
    have hmem : get_hashed_dependencies_path mgr (cacheableOf mgr opts reqs) ∈
        fs.existingDirs ++ [get_hashed_dependencies_path mgr (cacheableOf mgr opts reqs)] :=
      List.mem_append_right _ (List.mem_singleton.mpr rfl)
    rw [if_pos hmem]
    simp [cacheDirOf]

/-- Witness for C9 on the already-existing cache directory: set_cache_path
events only, one command per resolved dependency. -/
theorem dependency_shell_commands_spec_witness :
    CachedDependencyManager.dependency_shell_commands cacheMgr fsWithCache reqsSamtools
        defaultOpts false true =
      Except.ok (fsWithCache,
        (cacheableOf cacheMgr defaultOpts reqsSamtools).map
          (fun d => CacheEvent.setCachePath (cacheDirOf cacheMgr defaultOpts reqsSamtools) d),
        (resolvedOf cacheMgr defaultOpts reqsSamtools).map (fun p => p.2.shell_command)) :=
  (dependency_shell_commands_spec cacheMgr fsWithCache reqsSamtools defaultOpts false true).1
    (List.mem_cons_self _ _)

/-- C10: with return_null set, a requirement recorded with a Null dependency
by an earlier resolver still counts as unmet: the Null entry is recorded with
its version overwritten by the originally requested version (line 218), later
resolvers are still consulted for the requirement (the non-null snapshot on
line 162 excludes it), and a later concrete result overwrites the Null value
in place, the requirement keeping its original insertion position. -/
theorem return_null_overwrite (R1 R2 : ToolRequirement) (n d1 d2 : Dependency)
    (hne : R1 ≠ R2) (ht1 : R1.type = "package") (ht2 : R2.type = "package")
    (hn : n.isNull = true) (h1 : d1.isNull = false) (h2 : d2.isNull = false) :
    requirements_to_dependencies_dict
        { dependency_resolvers :=
            [plainResolver "galaxy_packages" (fun r => if r = R1 then n else d2),
             plainResolver "conda" (fun _ => d1)] }
        returnNullOpts { tool_requirements := [R1, R2] } =
      [(R1, d1), (R2, d2)] ∧
    requirements_to_dependencies_dict
        { dependency_resolvers :=
            [plainResolver "galaxy_packages" (fun r => if r = R1 then n else d2)] }
        returnNullOpts { tool_requirements := [R1, R2] } =
      [(R1, { n with version := R1.version }), (R2, d2)] := by
  have hne' : R2 ≠ R1 := Ne.symm hne
  have hres : ToolRequirements.resolvable { tool_requirements := [R1, R2] } = [R1, R2] := by
    simp [ToolRequirements.resolvable, ht1, ht2]
  have hbm1 : strStartsWith "galaxy_packages" "build_mulled" = false := by decide
  have hbm2 : strStartsWith "conda" "build_mulled" = false := by decide
  constructor
  · simp only [requirements_to_dependencies_dict, hres, resolveLoop, perItemPass, recordOne,
      odInsert, nonNullEntries, plainResolver, indexSkip, typeSkip, returnNullOpts,
      hbm1, hbm2, hn, h1, h2, hne, hne', if_true, if_false]
    simp [hne, hne', hn, h1, h2]
  · simp only [requirements_to_dependencies_dict, hres, resolveLoop, perItemPass, recordOne,
      odInsert, nonNullEntries, plainResolver, indexSkip, typeSkip, returnNullOpts,
      hbm1, hn, h1, h2, hne, hne', if_true, if_false]
    simp [hne, hne', hn, h1, h2]

/-- Witness for C10 at samtools/bwa: the Null samtools entry keeps position 0
with the requested version after the first resolver, and the second resolver's
concrete answer replaces it in place. -/
theorem return_null_overwrite_witness :
    requirements_to_dependencies_dict
        { dependency_resolvers :=
            [plainResolver "galaxy_packages" (fun r => if r = reqSamtools then nullSamtools else depBwa),
             plainResolver "conda" (fun _ => depSamtools)] }
        returnNullOpts { tool_requirements := [reqSamtools, reqBwa] } =
      [(reqSamtools, depSamtools), (reqBwa, depBwa)] ∧
    requirements_to_dependencies_dict
        { dependency_resolvers :=
            [plainResolver "galaxy_packages" (fun r => if r = reqSamtools then nullSamtools else depBwa)] }
        returnNullOpts { tool_requirements := [reqSamtools, reqBwa] } =
      [(reqSamtools, { nullSamtools with version := reqSamtools.version }), (reqBwa, depBwa)] :=
  return_null_overwrite reqSamtools reqBwa nullSamtools depSamtools depBwa (by decide) rfl rfl
    rfl rfl rfl
